import Mathlib

/-!
Verification of the table data pipeline, pagination reconciler, selection
tracker and column layout engine of `src/components/table/CommonTable.tsx`
(the `CommonTable` React component), as a shallow embedding in Lean.

Modelling conventions:
* The component is generic in the row type `T` (TypeScript
  `CommonTable<T extends Record<string, any>>`).  Cell resolution
  (`getCellValue(record, dataIndex)`) is modelled by a parameter
  `getCell : T → Option String → V` with the same signature; the value
  domain `V` is a linearly ordered type (modelling the JavaScript
  `<`/`>` comparisons used by the default sorter) with a stringification
  function `vStr : V → String` (modelling `String(cellValue)`).
* `React.Key` (`string | number`) is modelled by `JSKey`.
* `columns.indexOf(col)` in the source recomputes the original position of a
  visible column inside the full column list; the model carries that index
  alongside each column (`List.enum`), which agrees with `indexOf` for
  distinct column objects.
* `Array.prototype.sort(cmp)` is required by ECMAScript 2019+ to be a stable
  sort whose result is ordered by the comparator; it is modelled by the
  stable `List.mergeSort` with `le a b := cmp a b ≤ 0`.
* JavaScript `Set` is insertion ordered; it is modelled by a duplicate-free
  list with `jsSetAdd` / `jsSetDelete`.
* React state updates (`setFilters`, `setInternalPagination`) committed by an
  interaction handler take effect on the next render, while values captured
  by the handler's closure (such as the `displayData` memo) are those of the
  current render; handlers are modelled as functions from the current
  interaction state to (next state, emitted notifications).
-/

namespace CommonTable

/-- React.Key = string | number. -/
inductive JSKey where
  | str : String → JSKey
  | num : Int → JSKey
deriving DecidableEq, Repr

/-- JS String(k) for a key. -/
def JSKey.toStr : JSKey → String
  | .str s => s
  | .num n => toString n

inductive FixedSide where
  | left
  | right
deriving DecidableEq, Repr

/-- SortOrder = "ascend" | "descend" (the `null` member is modelled by
`Option SortOrder`). -/
inductive SortOrder where
  | ascend
  | descend
deriving DecidableEq, Repr

/-- `sorter?: boolean | ((a, b) => number)` on a column: absent, a boolean, or
a custom comparator returning a JS number. -/
inductive ColSorter (T : Type) where
  | undef
  | bool (b : Bool)
  | fn (cmp : T → T → Int)

/-- `width` / `minWidth`: `number | string`. -/
inductive JSDim where
  | num (n : Int)
  | str (s : String)
deriving DecidableEq, Repr

/-- The fields of `CommonColumnType` consumed by the data pipeline and the
layout engine. -/
structure Column (T V : Type) where
  key : Option JSKey := none
  dataIndex : Option String := none
  width : Option JSDim := none
  minWidth : Option JSDim := none
  fixed : Option FixedSide := none
  sorter : ColSorter T := ColSorter.undef
  onFilter : Option (JSKey → T → Bool) := none

/-- `getColumnKey(col, index)`: explicit `key`, else string `dataIndex`, else
the positional index. -/
def getColumnKey {T V : Type} (col : Column T V) (index : Nat) : JSKey :=
  match col.key with
  | some k => k
  | none =>
    match col.dataIndex with
    | some d => JSKey.str d
    | none => JSKey.num index

/-- `visibleColumns`: `columnSettingsProps?.visibleKeys == null` keeps every
column, else keeps the columns whose key is in the list.  Each column is
paired with its index in the full column list (the source recovers it later
via `columns.indexOf(col)`). -/
def visibleColumnsIdx {T V : Type} (columns : List (Column T V))
    (visibleKeys : Option (List JSKey)) : List (Nat × Column T V) :=
  match visibleKeys with
  | none => columns.enum
  | some keys => columns.enum.filter (fun ic => keys.contains (getColumnKey ic.2 ic.1))

section Pipeline

variable {T V : Type} [LinearOrder V]

/-- `TableFilters`: a map from column key to `Key[] | null`; absent and null
are both `none`. -/
def TableFilters : Type := JSKey → Option (List JSKey)

/-- The body of the `visibleColumns.forEach` loop of `filteredData`: a column
with a non-empty filter value list keeps a row when some accepted value
matches, via `onFilter(v, record)` when present, else
`String(cellValue) === String(v)`. -/
def filterStep (vStr : V → String) (getCell : T → Option String → V)
    (filters : TableFilters) (result : List T) (ic : Nat × Column T V) : List T :=
  match filters (getColumnKey ic.2 ic.1) with
  | none => result
  | some filterValues =>
    if filterValues.isEmpty then result
    else
      result.filter (fun record =>
        filterValues.any (fun v =>
          match ic.2.onFilter with
          | some f => f v record
          | none => vStr (getCell record ic.2.dataIndex) == v.toStr))

/-- `filteredData`: fold the filter step over the visible columns (AND across
columns, OR across one column's accepted values). -/
def filteredData (vStr : V → String) (getCell : T → Option String → V)
    (dataSource : List T) (columns : List (Column T V))
    (visibleKeys : Option (List JSKey)) (filters : TableFilters) : List T :=
  (visibleColumnsIdx columns visibleKeys).foldl (filterStep vStr getCell filters) dataSource

/-- The generic comparison of the default sorter:
`va < vb ? -1 : va > vb ? 1 : 0`. -/
def jsCmp (va vb : V) : Int :=
  if va < vb then -1 else if va > vb then 1 else 0

/-- `Array.prototype.sort(cmp)`: stable, ordered by the comparator; modelled
by the stable merge sort with `le a b := cmp a b ≤ 0`. -/
def jsSort (cmp : T → T → Int) (l : List T) : List T :=
  l.mergeSort (fun a b => decide (cmp a b ≤ 0))

/-- The sorter state `{field?: string, order?: SortOrder}` (order `null` is
`none`). -/
structure SorterState where
  field : Option String := none
  order : Option SortOrder := none

/-- The predicate used to locate the sorted-by column:
`String(k) === sorter.field || c.dataIndex === sorter.field`. -/
def sortColPred {T V : Type} (f : String) (ic : Nat × Column T V) : Bool :=
  ((getColumnKey ic.2 ic.1).toStr == f) || (ic.2.dataIndex == some f)

/-- The dispatch on the found column's `sorter` declaration inside
`sortedData`: a custom comparator (`typeof sorterFn === "function"`) is
applied directly regardless of the direction; `sorter === true` compares
resolved cell values generically and negates the comparison for descending;
anything else returns the input unchanged. -/
def applySorter (getCell : T → Option String → V) (ord : SortOrder)
    (c : Column T V) (fd : List T) : List T :=
  match c.sorter with
  | ColSorter.fn cmp => jsSort cmp fd
  | ColSorter.bool true =>
    jsSort (fun a b =>
      let cmp := jsCmp (getCell a c.dataIndex) (getCell b c.dataIndex)
      if ord = SortOrder.ascend then cmp else -cmp) fd
  | _ => fd

/-- `sortedData`: no-op when `!sorter.field || !sorter.order` (JS falsiness:
absent field or empty string, absent order) or when the sorted-by column is
not found among the visible columns; else dispatch on the column's sorter
declaration. -/
def sortedData (getCell : T → Option String → V)
    (fd : List T) (sorter : SorterState) (columns : List (Column T V))
    (visibleKeys : Option (List JSKey)) : List T :=
  match sorter.field with
  | none => fd
  | some f =>
    match sorter.order with
    | none => fd
    | some ord =>
      if f = "" then fd
      else
        match (visibleColumnsIdx columns visibleKeys).find? (sortColPred f) with
        | none => fd
        | some ic => applySorter getCell ord ic.2 fd

end Pipeline

/-! ### Pagination -/

/-- The fields of the `pagination` prop object; `Option` models field
presence (`"current" in paginationProp`), `hasOnChange` models
`typeof paginationProp?.onChange === "function"`. -/
structure PaginationPropCfg where
  current : Option Int := none
  pageSize : Option Nat := none
  total : Option Nat := none
  serverSide : Bool := false
  hasOnChange : Bool := false

/-- `pagination?: PaginationConfig | false` (default
`{current: 1, pageSize: 10}`). -/
inductive PaginationProp where
  | disabled
  | cfg (c : PaginationPropCfg)

/-- The default value of the `pagination` prop. -/
def PaginationProp.default : PaginationProp :=
  PaginationProp.cfg { current := some 1, pageSize := some 10 }

/-- `internalPagination` state. -/
structure PaginationState where
  current : Int
  pageSize : Nat

/-- `isPaginationControlled`: prop not `false` and an `onChange` function is
supplied. -/
def isPaginationControlled : PaginationProp → Bool
  | PaginationProp.disabled => false
  | PaginationProp.cfg c => c.hasOnChange

/-- `currentPage`: `paginationConfig !== false ? paginationConfig.current : 1`
where the config's `current` is the prop's when controlled and present, else
the internal one. -/
def configCurrent (prop : PaginationProp) (internal : PaginationState) : Int :=
  match prop with
  | PaginationProp.disabled => 1
  | PaginationProp.cfg c =>
    if c.hasOnChange then
      match c.current with
      | some v => v
      | none => internal.current
    else internal.current

/-- `pageSize`: `paginationConfig !== false ? paginationConfig.pageSize : 10`,
with the same controlled/uncontrolled resolution. -/
def configPageSize (prop : PaginationProp) (internal : PaginationState) : Nat :=
  match prop with
  | PaginationProp.disabled => 10
  | PaginationProp.cfg c =>
    if c.hasOnChange then
      match c.pageSize with
      | some v => v
      | none => internal.pageSize
    else internal.pageSize

/-- `isServerSide = paginationConfig && paginationConfig.serverSide`. -/
def isServerSide : PaginationProp → Bool
  | PaginationProp.disabled => false
  | PaginationProp.cfg c => c.serverSide

/-- `paginationConfig?.total` (present only when `"total" in paginationProp`). -/
def propTotal : PaginationProp → Option Nat
  | PaginationProp.disabled => none
  | PaginationProp.cfg c => c.total

/-- `totalPages = Math.max(1, Math.ceil(total / pageSize))` (ceiling division
of naturals; the JS expression needs `pageSize > 0` to be finite). -/
def totalPages (total pageSize : Nat) : Nat :=
  max 1 ((total + pageSize - 1) / pageSize)

/-- `effectiveCurrentPage = total === 0 ? 1 : Math.min(currentPage, totalPages)`.
Note: no branch on `serverSide`, and no clamping from below. -/
def effectiveCurrentPage (total : Nat) (currentPage : Int) (pageSize : Nat) : Int :=
  if total = 0 then 1 else min currentPage (totalPages total pageSize : Int)

/-- `Array.prototype.slice(start, stop)` with JS index normalisation
(negative indices count from the end, both ends clamped to `[0, length]`). -/
def jsSlice {T : Type} (l : List T) (start stop : Int) : List T :=
  let len : Int := l.length
  let s : Int := if start < 0 then max (len + start) 0 else min start len
  let e : Int := if stop < 0 then max (len + stop) 0 else min stop len
  (l.drop s.toNat).take (e - s).toNat

/-- `displayData`: the full `dataSource` when server-side, else
`sortedData.slice(start, start + pageSize)` with
`start = (effectiveCurrentPage - 1) * pageSize`. -/
def displayData {T : Type} (isSrv : Bool) (dataSource sorted : List T)
    (effPage : Int) (pageSize : Nat) : List T :=
  if isSrv then dataSource
  else jsSlice sorted ((effPage - 1) * pageSize) ((effPage - 1) * pageSize + pageSize)

/-! ### Column layout engine -/

/-- `SELECTION_COL_WIDTH = 40`. -/
def SELECTION_COL_WIDTH : Int := 40

/-- One entry of `columnLayout`: `{key, width, fixed}`. -/
structure LayoutItem where
  key : JSKey
  width : Int
  fixed : Option FixedSide := none
deriving DecidableEq, Repr

/-- The `rowSelection` prop fields the model needs. -/
structure RowSelectionProp where
  type : Option Bool := none
  selectedRowKeys : Option (List JSKey) := none
  fixed : Option FixedSide := none

/-- `rowSelectionProp.type === "radio"`; the model encodes
`type?: 'checkbox' | 'radio'` as `Option Bool` with `some true = radio`,
`some false = checkbox`, `none` absent. -/
def RowSelectionProp.isRadio (rs : RowSelectionProp) : Bool :=
  rs.type == some true

/-- Width resolution inside `columnLayout`:
`typeof w === "number" ? w : /^\d+$/.test(String(w)) ? Number(w) : 100`
(`String.toNat?` succeeds exactly on non-empty all-digit strings, which is
the regular expression's language). -/
def resolveWidth : Option JSDim → Int
  | some (JSDim.num n) => n
  | some (JSDim.str s) =>
    match s.toNat? with
    | some n => (n : Int)
    | none => 100
  | none => 100

/-- `columnLayout`: the selection column (width 40, the prop's `fixed`)
when `rowSelectionProp` is present, followed by one item per visible column
with `width ?? minWidth` resolved. -/
def columnLayout {T V : Type} (rowSel : Option RowSelectionProp)
    (columns : List (Column T V)) (visibleKeys : Option (List JSKey)) :
    List LayoutItem :=
  (match rowSel with
   | some rs => [{ key := JSKey.str "__selection__", width := SELECTION_COL_WIDTH,
                   fixed := rs.fixed }]
   | none => []) ++
  (visibleColumnsIdx columns visibleKeys).map (fun ic =>
    { key := getColumnKey ic.2 ic.1
      width := resolveWidth (ic.2.width <|> ic.2.minWidth)
      fixed := ic.2.fixed })

/-- The forward loop of `leftOffsets`: `left[i] = leftAcc` before adding the
item's width when it is fixed left. -/
def leftOffsetsAux (acc : Int) : List LayoutItem → List Int
  | [] => []
  | it :: rest =>
    acc :: leftOffsetsAux (if it.fixed = some FixedSide.left then acc + it.width else acc) rest

/-- `leftOffsets` with `leftAcc` starting at 0. -/
def leftOffsets (items : List LayoutItem) : List Int :=
  leftOffsetsAux 0 items

/-- The backward loop of `rightOffsets`: processing the tail (the items to
the right) yields the running `rightAcc`, the entry for the current item is
that accumulator before its own width is added. -/
def rightOffsetsAux : List LayoutItem → Int × List Int
  | [] => (0, [])
  | it :: rest =>
    let r := rightOffsetsAux rest
    (if it.fixed = some FixedSide.right then r.1 + it.width else r.1, r.1 :: r.2)

/-- `rightOffsets` (the list produced by the backward loop). -/
def rightOffsets (items : List LayoutItem) : List Int :=
  (rightOffsetsAux items).2

/-! ### Selection tracker -/

/-- JS `Set.add`: insertion-ordered, keeps the first occurrence. -/
def jsSetAdd (l : List JSKey) (k : JSKey) : List JSKey :=
  if k ∈ l then l else l ++ [k]

/-- JS `Set.delete`. -/
def jsSetDelete (l : List JSKey) (k : JSKey) : List JSKey :=
  l.filter (fun x => x ≠ k)

/-- `new Set(iterable)`: add every element in order. -/
def jsSetFrom (l : List JSKey) : List JSKey :=
  l.foldl jsSetAdd []

/-- The selection a render works with (`selectedRowKeys` memo): the
controlled keys when supplied, else the internal set. -/
def currentSelection (rowSel : RowSelectionProp) (internalSel : List JSKey) :
    List JSKey :=
  match rowSel.selectedRowKeys with
  | some ks => ks
  | none => internalSel

/-- `toggleAllRowsOnPage(selected)`: radio mode returns early (no change);
controlled checkbox mode reports `Array.from(new Set([...prior, ...pageKeys]))`
when turning on and `prior.filter(k => !pageSet.has(k))` when turning off;
uncontrolled checkbox mode adds/deletes every page key on the internal set.
The result is the selection key list the component reports/stores. -/
def toggleAllRowsOnPage (rowSel : RowSelectionProp) (internalSel : List JSKey)
    (pageKeys : List JSKey) (selected : Bool) : List JSKey :=
  if rowSel.isRadio then currentSelection rowSel internalSel
  else
    match rowSel.selectedRowKeys with
    | some ks =>
      if selected then jsSetFrom (ks ++ pageKeys)
      else ks.filter (fun k => ¬ (k ∈ pageKeys))
    | none =>
      pageKeys.foldl
        (fun next k => if selected then jsSetAdd next k else jsSetDelete next k)
        internalSel

/-! ### Orchestrator state and interaction handlers -/

section Orchestrator

variable {T V : Type} [LinearOrder V]

/-- The props consumed by the data pipeline. -/
structure TableProps (T V : Type) where
  columns : List (Column T V)
  dataSource : List T
  visibleKeys : Option (List JSKey) := none
  pagination : PaginationProp := PaginationProp.default

/-- The interaction state owned by the component: `filters`, `sorter`,
`internalPagination`. -/
structure TableState where
  filters : TableFilters := fun _ => none
  sorter : SorterState := {}
  internal : PaginationState := { current := 1, pageSize := 10 }

/-- The working set of a render: `sortedData` over `filteredData`. -/
def workingSet (vStr : V → String) (getCell : T → Option String → V)
    (p : TableProps T V) (st : TableState) : List T :=
  sortedData getCell
    (filteredData vStr getCell p.dataSource p.columns p.visibleKeys st.filters)
    st.sorter p.columns p.visibleKeys

/-- The effective current page of a render. -/
def renderEffectivePage (vStr : V → String) (getCell : T → Option String → V)
    (p : TableProps T V) (st : TableState) : Int :=
  effectiveCurrentPage (workingSet vStr getCell p st).length
    (configCurrent p.pagination st.internal)
    (configPageSize p.pagination st.internal)

/-- The `displayData` memo of a render. -/
def renderDisplayData (vStr : V → String) (getCell : T → Option String → V)
    (p : TableProps T V) (st : TableState) : List T :=
  displayData (isServerSide p.pagination) p.dataSource
    (workingSet vStr getCell p st)
    (renderEffectivePage vStr getCell p st)
    (configPageSize p.pagination st.internal)

/-- One argument bundle of `triggerOnChange` (`onChange(pagination, filters,
sorter, extra)`). -/
structure Notification (T : Type) where
  pagCurrent : Int
  pagPageSize : Nat
  pagTotal : Option Nat
  filters : TableFilters
  sorterField : Option String
  sorterOrder : Option SortOrder
  currentDataSource : List T

/-- `handleFilterChange(columnKey, value)`: commit `newFilters`, build
`newPagination` with `current: 1` and `total` from the current working set,
reset the internal page to 1 when uncontrolled, and call `triggerOnChange`
once.  The closure captures the current render's `displayData` memo, so the
notification carries the pre-interaction page slice. -/
def handleFilterChange (vStr : V → String) (getCell : T → Option String → V)
    (p : TableProps T V) (st : TableState)
    (columnKey : JSKey) (value : Option (List JSKey)) :
    TableState × List (Notification T) :=
  let newFilters : TableFilters := fun k => if k = columnKey then value else st.filters k
  let note : Notification T :=
    { pagCurrent := 1
      pagPageSize := configPageSize p.pagination st.internal
      pagTotal := if isServerSide p.pagination then propTotal p.pagination
                  else some (workingSet vStr getCell p st).length
      filters := newFilters
      sorterField := st.sorter.field
      sorterOrder := st.sorter.order
      currentDataSource := renderDisplayData vStr getCell p st }
  let st' : TableState :=
    { st with
      filters := newFilters
      internal := if isPaginationControlled p.pagination then st.internal
                  else { st.internal with current := 1 } }
  (st', [note])

/-- `handleSorterChange(field, nextOrder)`: commit the new sorter, build
`newPagination` with `current: 1`, reset the internal page to 1 when
uncontrolled, and call `triggerOnChange` once (again with the current
render's `displayData`). -/
def handleSorterChange (vStr : V → String) (getCell : T → Option String → V)
    (p : TableProps T V) (st : TableState)
    (f : String) (nextOrder : Option SortOrder) :
    TableState × List (Notification T) :=
  let note : Notification T :=
    { pagCurrent := 1
      pagPageSize := configPageSize p.pagination st.internal
      pagTotal := if isServerSide p.pagination then propTotal p.pagination
                  else some (workingSet vStr getCell p st).length
      filters := st.filters
      sorterField := some f
      sorterOrder := nextOrder
      currentDataSource := renderDisplayData vStr getCell p st }
  let st' : TableState :=
    { st with
      sorter := { field := some f, order := nextOrder }
      internal := if isPaginationControlled p.pagination then st.internal
                  else { st.internal with current := 1 } }
  (st', [note])

end Orchestrator

/-! ### Concrete instantiation used by counterexamples, scenarios and
witnesses: rows are natural numbers, cell values are integers, every
`dataIndex` resolves to the row's own number. -/

/-- `String(v)` for an integer cell value. -/
def vStrI : Int → String := toString

/-- Cell accessor of the concrete instantiation. -/
def getCellN : Nat → Option String → Int := fun r _ => (r : Int)

/-- A plain filterable column keyed `"v"`. -/
def colV : Column Nat Int := { key := some (JSKey.str "v"), dataIndex := some "v" }

/-- `colV` with `sorter: true`. -/
def colS : Column Nat Int :=
  { key := some (JSKey.str "v"), dataIndex := some "v", sorter := ColSorter.bool true }

/-- A column with a custom (descending-by-value) comparator. -/
def colC : Column Nat Int :=
  { key := some (JSKey.str "c"), dataIndex := some "c",
    sorter := ColSorter.fn (fun a b => (b : Int) - (a : Int)) }

/-- The empty filter state. -/
def flEmpty : TableFilters := fun _ => none

/-- A filter accepting only the value 1 on column `"v"`. -/
def flV : TableFilters :=
  fun k => if k = JSKey.str "v" then some [JSKey.num 1] else none

/-- A filter accepting the values 0..4 on column `"v"`. -/
def fl5 : TableFilters :=
  fun k =>
    if k = JSKey.str "v" then
      some [JSKey.num 0, JSKey.num 1, JSKey.num 2, JSKey.num 3, JSKey.num 4]
    else none

/-- 48 rows, one filterable column, default pagination. -/
def p48 : TableProps Nat Int := { columns := [colV], dataSource := List.range 48 }

/-- State for the shrinking-filter scenario: filter keeps 5 of 48 rows while
the uncontrolled current page is 5 (page size 10). -/
def st48 : TableState :=
  { filters := fl5, internal := { current := 5, pageSize := 10 } }

/-- Server-side controlled pagination with requested page 3 over a 5-row
working set (page size 10). -/
def pSrv : TableProps Nat Int :=
  { columns := [colV], dataSource := [10, 11, 12, 13, 14],
    pagination := PaginationProp.cfg
      { current := some 3, pageSize := some 10, serverSide := true, hasOnChange := true } }

/-- Two rows and one filterable column, used for the stale-notification
input. -/
def pC4 : TableProps Nat Int := { columns := [colV], dataSource := [1, 2] }

/-- An uncontrolled checkbox row selection. -/
def rsU : RowSelectionProp := {}

/-- The row keys of page 2 in the select-all scenario: 11..20. -/
def pageKeys2 : List JSKey := (List.range 10).map (fun i => JSKey.num (11 + i))

/-- The layout scenario's data columns: channel (fixed left, width 140) and
duration (width 114). -/
def chans : List (Column Unit Int) :=
  [{ key := some (JSKey.str "channel"), fixed := some FixedSide.left,
     width := some (JSDim.num 140) },
   { key := some (JSKey.str "duration"), width := some (JSDim.num 114) }]

/-- A selection column fixed to the left. -/
def selLeftProp : RowSelectionProp := { fixed := some FixedSide.left }

/-- `le` of the stable-sort model for the default ascending comparator over
a sort key `k`. -/
def ascLEk {T V : Type} [LinearOrder V] (k : T → V) : T → T → Bool :=
  fun a b => decide (jsCmp (k a) (k b) ≤ 0)

/-- `le` of the stable-sort model for the default descending comparator over
a sort key `k`. -/
def descLEk {T V : Type} [LinearOrder V] (k : T → V) : T → T → Bool :=
  fun a b => decide (-(jsCmp (k a) (k b)) ≤ 0)

/-! ## Helper lemmas -/

theorem jsCmp_le_zero {V : Type} [LinearOrder V] (a b : V) :
    jsCmp a b ≤ 0 ↔ a ≤ b := by
  unfold jsCmp
  split_ifs with h1 h2
  · exact iff_of_true (by norm_num) h1.le
  · exact iff_of_false (by norm_num) (not_le.mpr h2)
  · exact iff_of_true le_rfl (le_of_not_lt h2)

theorem neg_jsCmp_le_zero {V : Type} [LinearOrder V] (a b : V) :
    -jsCmp a b ≤ 0 ↔ b ≤ a := by
  unfold jsCmp
  split_ifs with h1 h2
  · exact iff_of_false (by norm_num) (not_le.mpr h1)
  · exact iff_of_true (by norm_num) h2.le
  · exact iff_of_true (by norm_num) (le_of_not_lt h1)

theorem jsSlice_eq_drop_take {T : Type} (l : List T) (a b : Int)
    (ha : 0 ≤ a) (hab : a ≤ b) :
    jsSlice l a b = (l.drop a.toNat).take (b - a).toNat := by
  have h1 : ¬ a < 0 := not_lt.mpr ha
  have h2 : ¬ b < 0 := not_lt.mpr (ha.trans hab)
  simp only [jsSlice, if_neg h1, if_neg h2]
  rcases le_or_lt a (l.length : Int) with hal | hal
  · rw [min_eq_left hal]
    apply List.take_eq_take.mpr
    simp only [List.length_drop]
    omega
  · rw [min_eq_right hal.le]
    have hd1 : l.drop ((l.length : Int)).toNat = [] := by simp
    have hd2 : l.drop a.toNat = [] := List.drop_eq_nil_of_le (by omega)
    rw [hd1, hd2]
    simp

theorem jsSlice_zero {T : Type} (l : List T) (n : Nat) :
    jsSlice l 0 (n : Int) = l.take n := by
  rw [jsSlice_eq_drop_take l 0 (n : Int) le_rfl (by positivity)]
  simp

/-! ## C2 -/

/-- C2 counterexample: with a 5-row working set, page size 10 and requested
page 0, the effective current page is 0, outside `[1, totalPages]` — the
code only clamps from above. -/
theorem effectivePage_range_cex :
    ¬ (1 ≤ effectiveCurrentPage 5 0 10 ∧
        effectiveCurrentPage 5 0 10 ≤ (totalPages 5 10 : Int)) := by decide

/-- C2 (amended): for every working-set size and page size, the effective
current page lies within `[1, totalPages]` provided the requested page is at
least 1; there is no clamping from below for requested pages below 1. -/
theorem effectivePage_in_range (total pageSize : Nat) (current : Int)
    (hc : 1 ≤ current) :
    1 ≤ effectiveCurrentPage total current pageSize ∧
      effectiveCurrentPage total current pageSize ≤ (totalPages total pageSize : Int) := by
  have h1 : (1 : Int) ≤ (totalPages total pageSize : Int) := by
    have : 1 ≤ totalPages total pageSize := le_max_left _ _
    exact_mod_cast this
  unfold effectiveCurrentPage
  split_ifs with h
  · exact ⟨le_refl 1, h1⟩
  · exact ⟨le_min hc h1, min_le_right _ _⟩

theorem effectivePage_in_range_witness :
    1 ≤ effectiveCurrentPage 25 7 10 ∧
      effectiveCurrentPage 25 7 10 ≤ (totalPages 25 10 : Int) :=
  effectivePage_in_range 25 10 7 (by decide)

/-! ## C10 -/

/-- C10: with the `pagination` prop explicitly `false`, the displayed rows
are still the page-1 slice with page size 10: `displayData` is the first 10
rows of the filtered/sorted working set, and never more than 10 rows. -/
theorem displayData_pagination_disabled {T V : Type} [LinearOrder V]
    (vStr : V → String) (getCell : T → Option String → V)
    (columns : List (Column T V)) (dataSource : List T)
    (vis : Option (List JSKey)) (st : TableState) :
    let p : TableProps T V :=
      { columns := columns, dataSource := dataSource, visibleKeys := vis,
        pagination := PaginationProp.disabled }
    renderDisplayData vStr getCell p st = (workingSet vStr getCell p st).take 10 ∧
      (renderDisplayData vStr getCell p st).length ≤ 10 := by
  intro p
  have heff : renderEffectivePage vStr getCell p st = 1 := by
    unfold renderEffectivePage effectiveCurrentPage
    have hc : configCurrent p.pagination st.internal = 1 := rfl
    rw [hc]
    split_ifs with h
    · rfl
    · apply min_eq_left
      have : 1 ≤ totalPages (workingSet vStr getCell p st).length
          (configPageSize p.pagination st.internal) := le_max_left _ _
      exact_mod_cast this
  have hmain : renderDisplayData vStr getCell p st
      = (workingSet vStr getCell p st).take 10 := by
    unfold renderDisplayData displayData
    rw [heff]
    have hsrv : isServerSide p.pagination = false := rfl
    rw [hsrv]
    have hps : configPageSize p.pagination st.internal = 10 := rfl
    rw [hps]
    norm_num
    exact jsSlice_zero _ 10
  refine ⟨hmain, ?_⟩
  rw [hmain]
  simp

/-! ## C5 -/

/-- C5: each filter-change and each sort-change handler emits exactly one
unified change notification, its pagination descriptor carries
`current = 1`, and in uncontrolled mode the internal current page is reset
to 1. -/
theorem interaction_resets_page_and_notifies_once {T V : Type} [LinearOrder V]
    (vStr : V → String) (getCell : T → Option String → V)
    (p : TableProps T V) (st : TableState)
    (ck : JSKey) (v : Option (List JSKey)) (f : String) (ord : Option SortOrder) :
    ((handleFilterChange vStr getCell p st ck v).2.map (fun n => n.pagCurrent) = [1])
  ∧ ((handleSorterChange vStr getCell p st f ord).2.map (fun n => n.pagCurrent) = [1])
  ∧ (isPaginationControlled p.pagination = false →
       (handleFilterChange vStr getCell p st ck v).1.internal.current = 1
     ∧ (handleSorterChange vStr getCell p st f ord).1.internal.current = 1) := by
  refine ⟨rfl, rfl, fun h => ?_⟩
  constructor
  · simp [handleFilterChange, h]
  · simp [handleSorterChange, h]

theorem interaction_resets_page_witness :
    isPaginationControlled p48.pagination = false ∧
    (handleFilterChange vStrI getCellN p48 st48 (JSKey.str "v") none).1.internal.current = 1 :=
  ⟨rfl,
    ((interaction_resets_page_and_notifies_once vStrI getCellN p48 st48
        (JSKey.str "v") none "v" none).2.2 rfl).1⟩

/-! ## C1 -/

theorem foldl_filterStep_congr {T V : Type} [LinearOrder V]
    (vStr : V → String) (getCell : T → Option String → V)
    (filters : TableFilters) (h : JSKey) (v : Option (List JSKey)) :
    ∀ (L : List (Nat × Column T V)) (ds : List T),
      (∀ ic ∈ L, getColumnKey ic.2 ic.1 ≠ h) →
      L.foldl (filterStep vStr getCell (fun k => if k = h then v else filters k)) ds
        = L.foldl (filterStep vStr getCell filters) ds := by
  intro L
  induction L with
  | nil => intro ds _; rfl
  | cons ic L ih =>
    intro ds hh
    have h1 : getColumnKey ic.2 ic.1 ≠ h := hh ic (List.mem_cons_self _ _)
    have hstep : filterStep vStr getCell (fun k => if k = h then v else filters k) ds ic
        = filterStep vStr getCell filters ds ic := by
      unfold filterStep
      have hk : (fun k => if k = h then v else filters k) (getColumnKey ic.2 ic.1)
          = filters (getColumnKey ic.2 ic.1) := by
        simp only [if_neg h1]
      rw [hk]
    simp only [List.foldl_cons, hstep]
    exact ih _ (fun jc hj => hh jc (List.mem_cons_of_mem _ hj))

/-- C1 counterexample: a non-empty filter on column `"v"` is applied when the
column is visible but NOT applied when the column is hidden via the
visible-key list, so the filtered working set differs between the two
visibility settings. -/
theorem hiddenFilter_changes_workingSet_cex :
    filteredData vStrI getCellN [1, 2] [colV] (some []) flV = [1, 2] ∧
    filteredData vStrI getCellN [1, 2] [colV] (some [JSKey.str "v"]) flV = [1] ∧
    filteredData vStrI getCellN [1, 2] [colV] (some []) flV ≠
      filteredData vStrI getCellN [1, 2] [colV] (some [JSKey.str "v"]) flV := by
  decide

/-- C1 (amended): a filter value set on a column that is hidden (its key
matches no visible column) is retained in the filter state but has no effect
on the filtered working set: updating the filter entry of a hidden column
leaves `filteredData` unchanged. -/
theorem filteredData_hidden_filter_inert {T V : Type} [LinearOrder V]
    (vStr : V → String) (getCell : T → Option String → V)
    (ds : List T) (cols : List (Column T V)) (vis : Option (List JSKey))
    (filters : TableFilters) (h : JSKey) (v : Option (List JSKey))
    (hh : ∀ ic ∈ visibleColumnsIdx cols vis, getColumnKey ic.2 ic.1 ≠ h) :
    filteredData vStr getCell ds cols vis (fun k => if k = h then v else filters k)
      = filteredData vStr getCell ds cols vis filters := by
  unfold filteredData
  exact foldl_filterStep_congr vStr getCell filters h v _ ds hh

theorem filteredData_hidden_filter_inert_witness :
    filteredData vStrI getCellN [1, 2] [colV] (some [])
        (fun k => if k = JSKey.str "v" then some [JSKey.num 1] else flEmpty k)
      = filteredData vStrI getCellN [1, 2] [colV] (some []) flEmpty :=
  filteredData_hidden_filter_inert vStrI getCellN [1, 2] [colV] (some [])
    flEmpty (JSKey.str "v") (some [JSKey.num 1]) (by decide)

/-! ## C4 -/

/-- C4: the notification emitted by `handleFilterChange` carries the page
slice of the PRE-interaction state as `extra.currentDataSource` (the
handler's closure captures the current render's `displayData` memo), not the
page slice computed from the newly committed filter state: on two rows with
a new filter keeping only row 1, the notification carries `[1, 2]` while the
page after the interaction is `[1]`. -/
theorem handleFilterChange_stale_currentDataSource :
    ((handleFilterChange vStrI getCellN pC4 {} (JSKey.str "v")
        (some [JSKey.num 1])).2.map (fun n => n.currentDataSource) = [[1, 2]])
  ∧ (renderDisplayData vStrI getCellN pC4
        (handleFilterChange vStrI getCellN pC4 {} (JSKey.str "v")
          (some [JSKey.num 1])).1 = [1])
  ∧ ((handleFilterChange vStrI getCellN pC4 {} (JSKey.str "v")
        (some [JSKey.num 1])).2.map (fun n => n.currentDataSource)
      ≠ [renderDisplayData vStrI getCellN pC4
          (handleFilterChange vStrI getCellN pC4 {} (JSKey.str "v")
            (some [JSKey.num 1])).1]) := by
  refine ⟨rfl, rfl, ?_⟩
  decide

/-! ## C3 -/

/-- C3 counterexample: with server-side pagination, a 5-row working set,
page size 10 and requested page 3, the effective current page computed
before slicing is clamped to 1 — the requested page is NOT passed through
unclamped in server-side mode (the clamping formula has no server-side
branch). -/
theorem serverSide_effectivePage_clamped_cex :
    isServerSide pSrv.pagination = true ∧
    configCurrent pSrv.pagination ({} : TableState).internal = 3 ∧
    renderEffectivePage vStrI getCellN pSrv {} = 1 ∧
    renderEffectivePage vStrI getCellN pSrv {} ≠
      configCurrent pSrv.pagination ({} : TableState).internal := by
  decide

/-- C3 (amended): the effective page is computed by the same formula in all
modes — 1 on an empty working set, else `min(requestedPage, totalPages)`
(so server-side requests are clamped too, not passed through); server-side
slicing returns the full input row collection unchanged; otherwise, for a
requested page ≥ 1, the displayed rows are exactly the sub-range
`[(effectivePage-1)*pageSize, effectivePage*pageSize)` of the working set;
and the 48-row/page-5 shrinking-filter scenario yields effective page 1 with
all 5 remaining rows displayed. -/
theorem paginationReconciler_caseAnalysis {T V : Type} [LinearOrder V]
    (vStr : V → String) (getCell : T → Option String → V)
    (p : TableProps T V) (st : TableState) :
    ((workingSet vStr getCell p st).length = 0 →
       renderEffectivePage vStr getCell p st = 1)
  ∧ ((workingSet vStr getCell p st).length ≠ 0 →
       renderEffectivePage vStr getCell p st
         = min (configCurrent p.pagination st.internal)
             (totalPages (workingSet vStr getCell p st).length
               (configPageSize p.pagination st.internal) : Int))
  ∧ (isServerSide p.pagination = true →
       renderDisplayData vStr getCell p st = p.dataSource)
  ∧ (isServerSide p.pagination = false →
       1 ≤ configCurrent p.pagination st.internal →
       renderDisplayData vStr getCell p st
         = ((workingSet vStr getCell p st).drop
              ((renderEffectivePage vStr getCell p st - 1).toNat
                * configPageSize p.pagination st.internal)).take
             (configPageSize p.pagination st.internal))
  ∧ (renderEffectivePage vStrI getCellN p48 st48 = 1
     ∧ renderDisplayData vStrI getCellN p48 st48 = [0, 1, 2, 3, 4]) := by
  refine ⟨?_, ?_, ?_, ?_, by decide⟩
  · intro h
    unfold renderEffectivePage effectiveCurrentPage
    rw [if_pos h]
  · intro h
    unfold renderEffectivePage effectiveCurrentPage
    rw [if_neg h]
  · intro h
    unfold renderDisplayData displayData
    rw [h]
    simp
  · intro hsrv hc
    have heff1 : 1 ≤ renderEffectivePage vStr getCell p st := by
      unfold renderEffectivePage effectiveCurrentPage
      split_ifs with h
      · exact le_refl 1
      · refine le_min hc ?_
        have : 1 ≤ totalPages (workingSet vStr getCell p st).length
            (configPageSize p.pagination st.internal) := le_max_left _ _
        exact_mod_cast this
    set e := renderEffectivePage vStr getCell p st with he
    set ps := configPageSize p.pagination st.internal with hps
    unfold renderDisplayData displayData
    rw [hsrv]
    rw [← he, ← hps]
    simp only [Bool.false_eq_true, if_false]
    rw [jsSlice_eq_drop_take _ _ _
      (mul_nonneg (by omega) (by positivity))
      (le_add_of_nonneg_right (by positivity))]
    have h1 : ((e - 1) * (ps : Int) + (ps : Int) - (e - 1) * (ps : Int)).toNat = ps := by
      omega
    have h2 : ((e - 1) * (ps : Int)).toNat = (e - 1).toNat * ps := by
      rcases Int.eq_ofNat_of_zero_le (by omega : (0 : Int) ≤ e - 1) with ⟨m, hm⟩
      rw [hm, ← Nat.cast_mul, Int.toNat_ofNat, Int.toNat_ofNat]
    rw [h1, h2]

theorem paginationReconciler_caseAnalysis_witness :
    isServerSide p48.pagination = false ∧
    1 ≤ configCurrent p48.pagination st48.internal ∧
    renderDisplayData vStrI getCellN p48 st48
      = ((workingSet vStrI getCellN p48 st48).drop
           ((renderEffectivePage vStrI getCellN p48 st48 - 1).toNat
             * configPageSize p48.pagination st48.internal)).take
          (configPageSize p48.pagination st48.internal) :=
  ⟨rfl, by decide,
    (paginationReconciler_caseAnalysis vStrI getCellN p48 st48).2.2.2.1 rfl (by decide)⟩

/-! ## C9 -/

theorem leftOffsetsAux_length (acc : Int) (items : List LayoutItem) :
    (leftOffsetsAux acc items).length = items.length := by
  induction items generalizing acc with
  | nil => rfl
  | cons it rest ih => simp [leftOffsetsAux, ih]

theorem leftOffsetsAux_getElem (acc : Int) :
    ∀ (items : List LayoutItem) (i : Nat), i < items.length →
      (leftOffsetsAux acc items)[i]? =
        some (acc + (((items.take i).filter
            (fun it => it.fixed = some FixedSide.left)).map LayoutItem.width).sum) := by
  intro items
  induction items generalizing acc with
  | nil => intro i hi; simp at hi
  | cons it rest ih =>
    intro i hi
    cases i with
    | zero => simp [leftOffsetsAux]
    | succ i =>
      have hi' : i < rest.length := by simpa using hi
      by_cases h : it.fixed = some FixedSide.left
      · simp only [leftOffsetsAux, if_pos h, List.getElem?_cons_succ]
        rw [ih _ _ hi']
        simp only [List.take_succ_cons, List.filter_cons, decide_eq_true_eq, if_pos h,
          List.map_cons, List.sum_cons]
        rw [add_assoc]
      · simp only [leftOffsetsAux, if_neg h, List.getElem?_cons_succ]
        rw [ih _ _ hi']
        simp only [List.take_succ_cons, List.filter_cons, decide_eq_true_eq, if_neg h]

theorem rightOffsetsAux_fst (items : List LayoutItem) :
    (rightOffsetsAux items).1 =
      ((items.filter (fun it => it.fixed = some FixedSide.right)).map
        LayoutItem.width).sum := by
  induction items with
  | nil => rfl
  | cons it rest ih =>
    by_cases h : it.fixed = some FixedSide.right
    · simp only [rightOffsetsAux, if_pos h, List.filter_cons, decide_eq_true_eq,
        List.map_cons, List.sum_cons, ih]
      omega
    · simp only [rightOffsetsAux, if_neg h, List.filter_cons, decide_eq_true_eq, ih]

theorem rightOffsets_length (items : List LayoutItem) :
    (rightOffsets items).length = items.length := by
  induction items with
  | nil => rfl
  | cons it rest ih => simp [rightOffsets, rightOffsetsAux] at ih ⊢; exact ih

theorem rightOffsets_getElem :
    ∀ (items : List LayoutItem) (i : Nat), i < items.length →
      (rightOffsets items)[i]? =
        some ((((items.drop (i + 1)).filter
            (fun it => it.fixed = some FixedSide.right)).map LayoutItem.width).sum) := by
  intro items
  induction items with
  | nil => intro i hi; simp at hi
  | cons it rest ih =>
    intro i hi
    cases i with
    | zero =>
      simp only [rightOffsets, rightOffsetsAux, List.getElem?_cons_zero, List.drop_succ_cons,
        List.drop_zero]
      rw [rightOffsetsAux_fst]
    | succ i =>
      have hi' : i < rest.length := by simpa using hi
      simp only [rightOffsets, rightOffsetsAux, List.getElem?_cons_succ, List.drop_succ_cons]
      exact ih i hi'

/-- C9: the layout engine's offset arrays are dense (one entry per layout
position); `leftOffset[i]` is the cumulative width of the fixed-left columns
strictly before position `i` and `rightOffset[i]` the cumulative width of
the fixed-right columns strictly after position `i`; and the
selection+channel+duration scenario yields `leftOffset = [0, 40, 180]`. -/
theorem columnLayout_offsets_spec :
    (∀ items : List LayoutItem,
       (leftOffsets items).length = items.length ∧
       (rightOffsets items).length = items.length)
  ∧ (∀ (items : List LayoutItem) (i : Nat), i < items.length →
       (leftOffsets items)[i]? =
         some ((((items.take i).filter
             (fun it => it.fixed = some FixedSide.left)).map LayoutItem.width).sum))
  ∧ (∀ (items : List LayoutItem) (i : Nat), i < items.length →
       (rightOffsets items)[i]? =
         some ((((items.drop (i + 1)).filter
             (fun it => it.fixed = some FixedSide.right)).map LayoutItem.width).sum))
  ∧ (columnLayout (some selLeftProp) chans none =
       [{ key := JSKey.str "__selection__", width := 40, fixed := some FixedSide.left },
        { key := JSKey.str "channel", width := 140, fixed := some FixedSide.left },
        { key := JSKey.str "duration", width := 114, fixed := none }]
     ∧ leftOffsets (columnLayout (some selLeftProp) chans none) = [0, 40, 180]) := by
  refine ⟨fun items => ⟨leftOffsetsAux_length 0 items, rightOffsets_length items⟩,
    ?_, rightOffsets_getElem, by decide⟩
  intro items i hi
  rw [leftOffsets, leftOffsetsAux_getElem 0 items i hi, zero_add]

theorem columnLayout_offsets_spec_witness :
    (leftOffsets (columnLayout (some selLeftProp) chans none))[2]? =
      some (((((columnLayout (some selLeftProp) chans none).take 2).filter
          (fun it => it.fixed = some FixedSide.left)).map LayoutItem.width).sum) :=
  columnLayout_offsets_spec.2.1 (columnLayout (some selLeftProp) chans none) 2 (by decide)

/-! ## C8 -/

theorem mem_jsSetAdd (l : List JSKey) (k x : JSKey) :
    x ∈ jsSetAdd l k ↔ x ∈ l ∨ x = k := by
  unfold jsSetAdd
  split_ifs with h
  · constructor
    · exact Or.inl
    · rintro (hx | rfl)
      · exact hx
      · exact h
  · simp

theorem mem_foldl_jsSetAdd (x : JSKey) :
    ∀ (ks acc : List JSKey), x ∈ ks.foldl jsSetAdd acc ↔ x ∈ acc ∨ x ∈ ks := by
  intro ks
  induction ks with
  | nil => simp
  | cons k ks ih =>
    intro acc
    simp only [List.foldl_cons, ih, mem_jsSetAdd, List.mem_cons]
    tauto

theorem mem_jsSetFrom (x : JSKey) (l : List JSKey) : x ∈ jsSetFrom l ↔ x ∈ l := by
  unfold jsSetFrom
  rw [mem_foldl_jsSetAdd]
  simp

theorem mem_jsSetDelete (l : List JSKey) (k x : JSKey) :
    x ∈ jsSetDelete l k ↔ x ∈ l ∧ x ≠ k := by
  simp [jsSetDelete, List.mem_filter]

theorem mem_foldl_jsSetDelete (x : JSKey) :
    ∀ (ks acc : List JSKey), x ∈ ks.foldl jsSetDelete acc ↔ x ∈ acc ∧ x ∉ ks := by
  intro ks
  induction ks with
  | nil => simp
  | cons k ks ih =>
    intro acc
    simp only [List.foldl_cons, ih, mem_jsSetDelete, List.mem_cons]
    tauto

/-- C8: in checkbox mode, toggling "select all on page" on yields the union
of the prior selection with exactly the displayed page's row keys, and
toggling it off removes exactly those page keys, preserving selections from
other pages; in radio mode the handler is a no-op; and the page-2 scenario
({1,2,3} selected, page keys 11..20) yields the 13-key selection
{1,2,3,11,...,20}. -/
theorem toggleAllRowsOnPage_spec (rowSel : RowSelectionProp)
    (internalSel pageKeys : List JSKey) :
    (rowSel.isRadio = true → ∀ s : Bool,
       toggleAllRowsOnPage rowSel internalSel pageKeys s
         = currentSelection rowSel internalSel)
  ∧ (rowSel.isRadio = false →
       (∀ x, x ∈ toggleAllRowsOnPage rowSel internalSel pageKeys true ↔
          x ∈ currentSelection rowSel internalSel ∨ x ∈ pageKeys)
     ∧ (∀ x, x ∈ toggleAllRowsOnPage rowSel internalSel pageKeys false ↔
          x ∈ currentSelection rowSel internalSel ∧ x ∉ pageKeys))
  ∧ (toggleAllRowsOnPage rsU [JSKey.num 1, JSKey.num 2, JSKey.num 3] pageKeys2 true
       = [JSKey.num 1, JSKey.num 2, JSKey.num 3, JSKey.num 11, JSKey.num 12,
          JSKey.num 13, JSKey.num 14, JSKey.num 15, JSKey.num 16, JSKey.num 17,
          JSKey.num 18, JSKey.num 19, JSKey.num 20]) := by
  refine ⟨?_, ?_, by decide⟩
  · intro h s
    unfold toggleAllRowsOnPage
    simp [h]
  · intro h
    constructor
    · intro x
      unfold toggleAllRowsOnPage currentSelection
      simp only [h, Bool.false_eq_true, if_false]
      cases hsel : rowSel.selectedRowKeys with
      | some ks => simp [mem_jsSetFrom]
      | none => simp [mem_foldl_jsSetAdd]
    · intro x
      unfold toggleAllRowsOnPage currentSelection
      simp only [h, Bool.false_eq_true, if_false]
      cases hsel : rowSel.selectedRowKeys with
      | some ks => simp [List.mem_filter]
      | none => simp [mem_foldl_jsSetDelete]

theorem toggleAllRowsOnPage_spec_witness :
    JSKey.num 1 ∈ toggleAllRowsOnPage rsU [JSKey.num 1] [JSKey.num 2] true ↔
      JSKey.num 1 ∈ currentSelection rsU [JSKey.num 1] ∨
        JSKey.num 1 ∈ [JSKey.num 2] :=
  ((toggleAllRowsOnPage_spec rsU [JSKey.num 1] [JSKey.num 2]).2.1 rfl).1 (JSKey.num 1)

/-! ## C6 and C7: sorting -/

theorem ascLEk_iff {T V : Type} [LinearOrder V] (k : T → V) (a b : T) :
    ascLEk k a b = true ↔ k a ≤ k b := by
  simp [ascLEk, jsCmp_le_zero]

theorem descLEk_iff {T V : Type} [LinearOrder V] (k : T → V) (a b : T) :
    descLEk k a b = true ↔ k b ≤ k a := by
  simp only [descLEk, decide_eq_true_eq]
  exact neg_jsCmp_le_zero _ _

theorem ascLEk_trans {T V : Type} [LinearOrder V] (k : T → V) :
    ∀ a b c : T, ascLEk k a b → ascLEk k b c → ascLEk k a c := by
  intro a b c hab hbc
  rw [ascLEk_iff] at hab hbc ⊢
  exact le_trans hab hbc

theorem ascLEk_total {T V : Type} [LinearOrder V] (k : T → V) :
    ∀ a b : T, ascLEk k a b || ascLEk k b a := by
  intro a b
  rw [Bool.or_eq_true, ascLEk_iff, ascLEk_iff]
  exact le_total (k a) (k b)

theorem descLEk_trans {T V : Type} [LinearOrder V] (k : T → V) :
    ∀ a b c : T, descLEk k a b → descLEk k b c → descLEk k a c := by
  intro a b c hab hbc
  rw [descLEk_iff] at hab hbc ⊢
  exact le_trans hbc hab

theorem descLEk_total {T V : Type} [LinearOrder V] (k : T → V) :
    ∀ a b : T, descLEk k a b || descLEk k b a := by
  intro a b
  rw [Bool.or_eq_true, descLEk_iff, descLEk_iff]
  exact (le_total (k a) (k b)).symm

/-- Stability of the sort model: filtering the sorted list by a predicate
whose satisfying elements are pairwise `le`-related gives the same list as
filtering the input, i.e. such elements keep their original relative
order. -/
theorem mergeSort_filter_stable {T : Type} (le : T → T → Bool)
    (htrans : ∀ a b c, le a b → le b c → le a c)
    (htotal : ∀ a b, le a b || le b a)
    (p : T → Bool) (hp : ∀ a b, p a → p b → le a b) (l : List T) :
    (l.mergeSort le).filter p = l.filter p := by
  have hc : (l.filter p).Pairwise (fun a b => le a b = true) :=
    List.pairwise_of_forall_mem_list
      (fun a ha b hb => hp a b (List.of_mem_filter ha) (List.of_mem_filter hb))
  have h1 : List.Sublist (l.filter p) (l.mergeSort le) :=
    List.sublist_mergeSort htrans htotal hc (List.filter_sublist l)
  have h2 : (l.filter p).filter p = l.filter p :=
    List.filter_eq_self.mpr (fun a ha => List.of_mem_filter ha)
  have h3 : List.Sublist (l.filter p) ((l.mergeSort le).filter p) := h2 ▸ h1.filter p
  have h4 : ((l.mergeSort le).filter p).length = (l.filter p).length :=
    (List.Perm.filter p (List.mergeSort_perm l le)).length_eq
  exact (h3.eq_of_length h4.symm).symm

/-- Sorting with the negated default comparator is the exact reversal of
sorting with the default comparator when the sort keys are pairwise
distinct. -/
theorem jsSort_desc_eq_reverse_asc {T V : Type} [LinearOrder V]
    (k : T → V) (l : List T) (h : (l.map k).Nodup) :
    jsSort (fun a b => -(jsCmp (k a) (k b))) l
      = (jsSort (fun a b => jsCmp (k a) (k b)) l).reverse := by
  have hinj : ∀ x ∈ l, ∀ y ∈ l, k x = k y → x = y :=
    fun x hx y hy hxy => List.inj_on_of_nodup_map h hx hy hxy
  have hA : (jsSort (fun a b => jsCmp (k a) (k b)) l).Pairwise
      (fun a b => k a ≤ k b) := by
    have hs := List.sorted_mergeSort (ascLEk_trans k) (ascLEk_total k) l
    exact hs.imp (fun hab => (ascLEk_iff k _ _).mp hab)
  have hD : (jsSort (fun a b => -(jsCmp (k a) (k b))) l).Pairwise
      (fun a b => k b ≤ k a) := by
    have hs := List.sorted_mergeSort (descLEk_trans k) (descLEk_total k) l
    exact hs.imp (fun hab => (descLEk_iff k _ _).mp hab)
  have hrev : ((jsSort (fun a b => jsCmp (k a) (k b)) l).reverse).Pairwise
      (fun a b => k b ≤ k a) := List.pairwise_reverse.mpr hA
  have hperm : List.Perm (jsSort (fun a b => -(jsCmp (k a) (k b))) l)
      ((jsSort (fun a b => jsCmp (k a) (k b)) l).reverse) := by
    refine (List.mergeSort_perm l _).trans
      (List.Perm.trans ?_ (List.reverse_perm _).symm)
    exact (List.mergeSort_perm l _).symm
  refine List.Perm.eq_of_sorted ?_ hD hrev hperm
  intro a b ha hb h1 h2
  have ha' : a ∈ l := List.mem_mergeSort.mp ha
  have hb' : b ∈ l := List.mem_mergeSort.mp (List.mem_reverse.mp hb)
  exact hinj a ha' b hb' (le_antisymm h2 h1)

theorem applySorter_fn {T V : Type} [LinearOrder V]
    (getCell : T → Option String → V) (ord : SortOrder) (c : Column T V)
    (fd : List T) (cmp : T → T → Int) (hc : c.sorter = ColSorter.fn cmp) :
    applySorter getCell ord c fd = jsSort cmp fd := by
  unfold applySorter
  rw [hc]

theorem applySorter_ascend_default {T V : Type} [LinearOrder V]
    (getCell : T → Option String → V) (c : Column T V) (fd : List T)
    (hc : c.sorter = ColSorter.bool true) :
    applySorter getCell SortOrder.ascend c fd
      = jsSort (fun a b => jsCmp (getCell a c.dataIndex) (getCell b c.dataIndex)) fd := by
  unfold applySorter
  rw [hc]
  rfl

theorem applySorter_descend_default {T V : Type} [LinearOrder V]
    (getCell : T → Option String → V) (c : Column T V) (fd : List T)
    (hc : c.sorter = ColSorter.bool true) :
    applySorter getCell SortOrder.descend c fd
      = jsSort (fun a b => -(jsCmp (getCell a c.dataIndex) (getCell b c.dataIndex))) fd := by
  unfold applySorter
  rw [hc]
  rfl

theorem sortedData_found {T V : Type} [LinearOrder V]
    (getCell : T → Option String → V) (fd : List T)
    (cols : List (Column T V)) (vis : Option (List JSKey))
    (f : String) (ord : SortOrder) (i : Nat) (c : Column T V)
    (hf : f ≠ "")
    (hfind : (visibleColumnsIdx cols vis).find? (sortColPred f) = some (i, c)) :
    sortedData getCell fd { field := some f, order := some ord } cols vis
      = applySorter getCell ord c fd := by
  show (if f = "" then fd
    else
      match (visibleColumnsIdx cols vis).find? (sortColPred f) with
      | none => fd
      | some ic => applySorter getCell ord ic.2 fd) = applySorter getCell ord c fd
  rw [if_neg hf, hfind]

/-- C7: the sort step is a total function returning its input unchanged when
there is no active sort (field or order absent) or when the sorted-by column
is not found among the visible columns; and a declared custom comparator is
applied directly for every direction — the pipeline never negates a custom
comparator's result. -/
theorem sortedData_noop_and_custom {T V : Type} [LinearOrder V]
    (getCell : T → Option String → V) (fd : List T)
    (cols : List (Column T V)) (vis : Option (List JSKey)) :
    (∀ ord : Option SortOrder,
       sortedData getCell fd { field := none, order := ord } cols vis = fd)
  ∧ (∀ f : Option String,
       sortedData getCell fd { field := f, order := none } cols vis = fd)
  ∧ (∀ (f : String) (ord : SortOrder), f ≠ "" →
       (visibleColumnsIdx cols vis).find? (sortColPred f) = none →
       sortedData getCell fd { field := some f, order := some ord } cols vis = fd)
  ∧ (∀ (f : String) (ord : SortOrder) (i : Nat) (c : Column T V) (cmp : T → T → Int),
       f ≠ "" →
       (visibleColumnsIdx cols vis).find? (sortColPred f) = some (i, c) →
       c.sorter = ColSorter.fn cmp →
       sortedData getCell fd { field := some f, order := some ord } cols vis
         = jsSort cmp fd) := by
  refine ⟨fun ord => rfl, fun f => ?_, fun f ord hf hfind => ?_,
    fun f ord i c cmp hf hfind hc => ?_⟩
  · cases f <;> rfl
  · show (if f = "" then fd
      else
        match (visibleColumnsIdx cols vis).find? (sortColPred f) with
        | none => fd
        | some ic => applySorter getCell ord ic.2 fd) = fd
    rw [if_neg hf, hfind]
  · rw [sortedData_found getCell fd cols vis f ord i c hf hfind,
      applySorter_fn getCell ord c fd cmp hc]

theorem sortedData_noop_and_custom_witness :
    sortedData getCellN [1, 2, 3] { field := some "c", order := some SortOrder.descend }
        [colC] none
      = jsSort (fun a b => ((b : Nat) : Int) - ((a : Nat) : Int)) [1, 2, 3] :=
  (sortedData_noop_and_custom getCellN [1, 2, 3] [colC] none).2.2.2
    "c" SortOrder.descend 0 colC _ (by decide) rfl rfl

/-- C6: for a column with `sorter: true`, sorting descending is the exact
reversal of sorting ascending when the resolved sort keys are pairwise
distinct, and rows with equal sort keys keep their original relative order
in both directions (the sort is stable). -/
theorem sortedData_reversal_and_stability {T V : Type} [LinearOrder V]
    (getCell : T → Option String → V) (fd : List T)
    (cols : List (Column T V)) (vis : Option (List JSKey))
    (f : String) (i : Nat) (c : Column T V)
    (hf : f ≠ "")
    (hfind : (visibleColumnsIdx cols vis).find? (sortColPred f) = some (i, c))
    (hs : c.sorter = ColSorter.bool true) :
    ((fd.map (fun r => getCell r c.dataIndex)).Nodup →
       sortedData getCell fd { field := some f, order := some SortOrder.descend } cols vis
         = (sortedData getCell fd
             { field := some f, order := some SortOrder.ascend } cols vis).reverse)
  ∧ (∀ v : V,
       (sortedData getCell fd
           { field := some f, order := some SortOrder.ascend } cols vis).filter
           (fun r => getCell r c.dataIndex == v)
         = fd.filter (fun r => getCell r c.dataIndex == v))
  ∧ (∀ v : V,
       (sortedData getCell fd
           { field := some f, order := some SortOrder.descend } cols vis).filter
           (fun r => getCell r c.dataIndex == v)
         = fd.filter (fun r => getCell r c.dataIndex == v)) := by
  have hasc : sortedData getCell fd
      { field := some f, order := some SortOrder.ascend } cols vis
      = jsSort (fun a b => jsCmp (getCell a c.dataIndex) (getCell b c.dataIndex)) fd := by
    rw [sortedData_found getCell fd cols vis f SortOrder.ascend i c hf hfind,
      applySorter_ascend_default getCell c fd hs]
  have hdesc : sortedData getCell fd
      { field := some f, order := some SortOrder.descend } cols vis
      = jsSort (fun a b => -(jsCmp (getCell a c.dataIndex) (getCell b c.dataIndex))) fd := by
    rw [sortedData_found getCell fd cols vis f SortOrder.descend i c hf hfind,
      applySorter_descend_default getCell c fd hs]
  refine ⟨fun hnd => ?_, fun v => ?_, fun v => ?_⟩
  · rw [hasc, hdesc]
    exact jsSort_desc_eq_reverse_asc (fun r => getCell r c.dataIndex) fd hnd
  · rw [hasc]
    unfold jsSort
    refine mergeSort_filter_stable _ (ascLEk_trans (fun r => getCell r c.dataIndex))
      (ascLEk_total (fun r => getCell r c.dataIndex)) _ ?_ fd
    intro a b ha hb
    have h1 : getCell a c.dataIndex = v := by simpa using ha
    have h2 : getCell b c.dataIndex = v := by simpa using hb
    simp [ascLEk_iff, h1, h2]
  · rw [hdesc]
    unfold jsSort
    refine mergeSort_filter_stable _ (descLEk_trans (fun r => getCell r c.dataIndex))
      (descLEk_total (fun r => getCell r c.dataIndex)) _ ?_ fd
    intro a b ha hb
    have h1 : getCell a c.dataIndex = v := by simpa using ha
    have h2 : getCell b c.dataIndex = v := by simpa using hb
    simp [descLEk_iff, h1, h2]

theorem sortedData_reversal_and_stability_witness :
    sortedData getCellN [3, 1, 2] { field := some "v", order := some SortOrder.descend }
        [colS] none
      = (sortedData getCellN [3, 1, 2]
          { field := some "v", order := some SortOrder.ascend } [colS] none).reverse :=
  (sortedData_reversal_and_stability getCellN [3, 1, 2] [colS] none "v" 0 colS
      (by decide) rfl rfl).1 (by decide)

end CommonTable
